import Mathlib

/-!
Verification of the path-confinement security layer of the automaker
repository (src/libs/platform/src/security.ts, the secure file-system
adapter in the same library, and the validate-paths Express middleware in
src/apps/server/src/middleware/validate-paths.ts).

The TypeScript code is shallowly embedded: Node's POSIX path-string
arithmetic (resolve, relative, dirname, basename, join) is modelled over
`List Char` segments, the process-wide security configuration becomes an
explicit `SecurityConfig` value, the filesystem consulted by the
symlink-aware validator becomes an explicit `FileSystem` record, and
thrown exceptions become `Except` values.
-/

/-- Characters of a string. In this toolchain `String` is a structure
wrapping `data : List Char`, so this is definitional. -/
def strChars (s : String) : List Char := s.data

/-- Model of JavaScript `String.prototype.startsWith`: `pre` is a prefix of
`s`, compared character by character. -/
def jsStartsWith (s pre : String) : Bool := pre.data.isPrefixOf s.data

/-- Model of JavaScript `String.prototype.endsWith`: `suf` is a suffix of
`s`. -/
def jsEndsWith (s suf : String) : Bool := suf.data.isSuffixOf s.data

/-- Model of JavaScript `String.prototype.toLowerCase` (ASCII case fold,
which covers the configuration strings the code compares). -/
def jsToLower (s : String) : String := String.mk (s.data.map Char.toLower)

/-- Model of JavaScript `String.prototype.slice(0, -n)`: drop the last `n`
characters. -/
def jsDropRight (s : String) (n : Nat) : String :=
  String.mk (s.data.take (s.data.length - n))

/-- Split a character list on the POSIX separator `'/'`. Mirrors the
segment decomposition performed by Node's path module. Always returns at
least one (possibly empty) segment. -/
def splitCh : List Char → List (List Char)
  | [] => [[]]
  | c :: cs =>
    if c = '/' then [] :: splitCh cs
    else (c :: (splitCh cs).headI) :: (splitCh cs).tail

/-- Join segments with the POSIX separator `'/'`, inverse of `splitCh` on
separator-free segments. -/
def joinCh : List (List Char) → List Char
  | [] => []
  | [t] => t
  | t :: ts => t ++ '/' :: joinCh ts

/-- One step of Node's path normalization: empty and `"."` segments are
dropped, `".."` pops the previous segment (a no-op at the root of an
absolute path), anything else is kept. -/
def resolveStep (acc : List (List Char)) (seg : List Char) : List (List Char) :=
  if seg = [] ∨ seg = ['.'] then acc
  else if seg = ['.', '.'] then acc.dropLast
  else acc ++ [seg]

/-- Normalize the segments of an absolute path, collapsing `"."` and
`".."` segments exactly as Node's `path.resolve` does. -/
def resolveSegsCh (segs : List (List Char)) : List (List Char) :=
  segs.foldl resolveStep []

/-- Model of Node `path.isAbsolute` (POSIX): nonempty and starting with
`'/'`. -/
def pathIsAbsolute (p : String) : Bool := p.data.head? = some '/'

/-- Normalized segment list of `p` interpreted against the working
directory `cwd` (itself an absolute path): an absolute `p` stands alone, a
relative `p` is appended to `cwd`, then dot segments are collapsed. This
is the segment skeleton shared by `pathResolve` and `pathRelative`. -/
def resolvedSegs (cwd p : String) : List (List Char) :=
  resolveSegsCh (splitCh (if p.data.head? = some '/' then p.data else cwd.data ++ '/' :: p.data))

/-- Model of Node `path.resolve(p)` (POSIX, single argument) against the
working directory `cwd`: the absolute, dot-segment-collapsed form of `p`. -/
def pathResolve (cwd p : String) : String :=
  String.mk ('/' :: joinCh (resolvedSegs cwd p))

/-- Drop the longest common prefix of two segment lists, returning the two
remainders. Auxiliary step of Node `path.relative`. -/
def dropCommon : List (List Char) → List (List Char) → List (List Char) × List (List Char)
  | a :: as, b :: bs => if a = b then dropCommon as bs else (a :: as, b :: bs)
  | as, bs => (as, bs)

/-- Model of Node `path.relative(f, t)` (POSIX): resolve both arguments
against `cwd`, drop their common segment prefix, then climb with a `".."`
segment for every remaining segment of `f` and descend into the remaining
segments of `t`. -/
def pathRelative (cwd f t : String) : String :=
  let fr := resolvedSegs cwd f
  let tr := resolvedSegs cwd t
  let rem := dropCommon fr tr
  String.mk (joinCh (rem.1.map (fun _ => ['.', '.']) ++ rem.2))

/-- Model of Node `path.dirname` on resolved absolute paths: drop the last
segment (the parent of `"/"` is `"/"`). -/
def pathDirname (p : String) : String :=
  String.mk ('/' :: joinCh (((splitCh p.data).filter (· ≠ [])).dropLast))

/-- Model of Node `path.basename` on resolved absolute paths: the last
segment (`""` for the root). -/
def pathBasename (p : String) : String :=
  String.mk (((splitCh p.data).filter (· ≠ [])).getLastD [])

/-- Model of Node `path.join(a, b)` for an absolute first argument (the
only way the adapter uses it): concatenate with a separator and
normalize. -/
def pathJoin (a b : String) : String :=
  String.mk ('/' :: joinCh (resolveSegsCh (splitCh (a.data ++ '/' :: b.data))))

/-- Security mode from security.ts: `strict` fails closed when no root
boundary is configured, `permissive` fails open. -/
inductive SecurityMode where
  | strict
  | permissive
deriving DecidableEq, Repr

/-- Process-wide security state of security.ts after initialization:
the working directory paths are resolved against, the mode, and the two
optional boundary directories (`null` becomes `none`). -/
structure SecurityConfig where
  cwd : String
  securityMode : SecurityMode
  allowedRootDirectory : Option String
  dataDirectory : Option String
deriving DecidableEq, Repr

/-- Errors surfaced by the validators: `pathNotAllowed` models a thrown
`PathNotAllowedError` carrying the string passed to its constructor, and
`enoent` models a propagated Node `ENOENT` filesystem error. -/
inductive SecError where
  | pathNotAllowed (input : String)
  | enoent
deriving DecidableEq, Repr

/-- Embedding of `isPathWithinDirectory` (security.ts lines 205-213):
compute the relative path from the directory to the target and accept
unless it starts with the two characters `".."` or is absolute. -/
def isPathWithinDirectory (cwd : String) (resolvedPath directoryPath : String) : Bool :=
  let relativePath := pathRelative cwd directoryPath resolvedPath
  !(jsStartsWith relativePath "..") && !(pathIsAbsolute relativePath)

/-- Embedding of `isPathAllowed` (security.ts lines 91-113): resolve the
candidate, always allow the data directory, otherwise fall back to the
permissive flag when no root is configured, otherwise require containment
in the root. -/
def isPathAllowed (cfg : SecurityConfig) (filePath : String) : Bool :=
  let resolvedPath := pathResolve cfg.cwd filePath
  if (match cfg.dataDirectory with
      | some d => isPathWithinDirectory cfg.cwd resolvedPath d
      | none => false) then
    true
  else
    match cfg.allowedRootDirectory with
    | none => decide (cfg.securityMode = SecurityMode.permissive)
    | some root => isPathWithinDirectory cfg.cwd resolvedPath root

/-- Embedding of `validatePath` (security.ts lines 123-131): resolve, then
either return the resolved path or throw `PathNotAllowedError(filePath)`
with the original input. -/
def validatePath (cfg : SecurityConfig) (filePath : String) : Except SecError String :=
  let resolvedPath := pathResolve cfg.cwd filePath
  if !(isPathAllowed cfg resolvedPath) then
    Except.error (SecError.pathNotAllowed filePath)
  else
    Except.ok resolvedPath

/-- Filesystem view consulted by the symlink-aware validator:
`lstatExists p` says whether `fs.lstatSync(p)` succeeds (entry present,
final symlink not followed), and `realpathFn p` is `fs.realpathSync(p)`
(`none` when it fails with `ENOENT`). The `isSymbolicLink` flag of the
lstat result only feeds an audit log line in the source and is not
modelled. -/
structure FileSystem where
  lstatExists : String → Bool
  realpathFn : String → Option String

/-- Embedding of `validatePathWithSymlinkCheck` (security.ts lines
148-199). The `try` block lstats the resolved path and validates its real
path; an `ENOENT` (from either `lstatSync` or `realpathSync`) is caught
and, when `requireExists` is false, handled by validating the real path of
the immediate parent directory and rebuilding the child under it, falling
back to plain `validatePath` when the parent is missing too. -/
def validatePathWithSymlinkCheck (cfg : SecurityConfig) (fsys : FileSystem)
    (filePath : String) (requireExists : Bool) : Except SecError String :=
  let resolvedPath := pathResolve cfg.cwd filePath
  let onEnoent : Except SecError String :=
    if requireExists then
      Except.error SecError.enoent
    else
      let parentDir := pathDirname resolvedPath
      match fsys.realpathFn parentDir with
      | some realParentPath =>
        if !(isPathAllowed cfg realParentPath) then
          Except.error (SecError.pathNotAllowed
            (filePath ++ " (parent resolves to " ++ realParentPath ++ ")"))
        else
          Except.ok (pathJoin realParentPath (pathBasename resolvedPath))
      | none => validatePath cfg filePath
  if fsys.lstatExists resolvedPath then
    match fsys.realpathFn resolvedPath with
    | some realPath =>
      if !(isPathAllowed cfg realPath) then
        Except.error (SecError.pathNotAllowed
          (filePath ++ " (resolves to " ++ realPath ++ " via symlink)"))
      else
        Except.ok realPath
    | none => onEnoent
  else onEnoent

/-- Environment variables read by `initAllowedPaths`, plus the process
working directory relative paths resolve against. A variable that is not
set is `none`. -/
structure Env where
  SECURITY_MODE : Option String
  ALLOWED_ROOT_DIRECTORY : Option String
  DATA_DIR : Option String
  cwd : String

/-- Embedding of `initAllowedPaths` (security.ts lines 43-79):
`SECURITY_MODE` selects permissive only when it lowercases to
`"permissive"`; the two directory variables are resolved against the
working directory when truthy (set and nonempty) and left unset otherwise.
The function only writes state and logs, so the model is total. -/
def initAllowedPaths (env : Env) : SecurityConfig :=
  let mode : SecurityMode :=
    match env.SECURITY_MODE with
    | some m => if jsToLower m = "permissive" then SecurityMode.permissive else SecurityMode.strict
    | none => SecurityMode.strict
  let root : Option String :=
    match env.ALLOWED_ROOT_DIRECTORY with
    | some r => if r = "" then none else some (pathResolve env.cwd r)
    | none => none
  let dataDir : Option String :=
    match env.DATA_DIR with
    | some d => if d = "" then none else some (pathResolve env.cwd d)
    | none => none
  ⟨env.cwd, mode, root, dataDir⟩

/-- The underlying filesystem call an adapter operation delegates to after
validation, recording the path argument(s) it is invoked with. An adapter
operation that fails validation produces an `Except.error` instead, so no
`FsOp` is issued. -/
inductive FsOp where
  | access (p : String)
  | readFile (p : String)
  | writeFile (p : String)
  | mkdir (p : String)
  | readdir (p : String)
  | stat (p : String)
  | rm (p : String)
  | unlink (p : String)
  | copyFile (src dest : String)
  | appendFile (p : String)
  | rename (src dest : String)
  | lstat (p : String)
deriving DecidableEq, Repr

namespace Adapter

/-- Embedding of the adapter `access` wrapper: symlink-aware validation of
an existing entry, then `fs.access` on the validated path. -/
def access (cfg : SecurityConfig) (fsys : FileSystem) (filePath : String) : Except SecError FsOp :=
  match validatePathWithSymlinkCheck cfg fsys filePath true with
  | Except.ok validatedPath => Except.ok (FsOp.access validatedPath)
  | Except.error e => Except.error e

/-- Embedding of the adapter `readFile` wrapper. -/
def readFile (cfg : SecurityConfig) (fsys : FileSystem) (filePath : String) : Except SecError FsOp :=
  match validatePathWithSymlinkCheck cfg fsys filePath true with
  | Except.ok validatedPath => Except.ok (FsOp.readFile validatedPath)
  | Except.error e => Except.error e

/-- Embedding of the adapter `writeFile` wrapper: symlink-aware validation
with `requireExists := false` so both new and existing files are handled. -/
def writeFile (cfg : SecurityConfig) (fsys : FileSystem) (filePath : String) : Except SecError FsOp :=
  match validatePathWithSymlinkCheck cfg fsys filePath false with
  | Except.ok validatedPath => Except.ok (FsOp.writeFile validatedPath)
  | Except.error e => Except.error e

/-- Embedding of the adapter `mkdir` wrapper. -/
def mkdir (cfg : SecurityConfig) (fsys : FileSystem) (dirPath : String) : Except SecError FsOp :=
  match validatePathWithSymlinkCheck cfg fsys dirPath false with
  | Except.ok validatedPath => Except.ok (FsOp.mkdir validatedPath)
  | Except.error e => Except.error e

/-- Embedding of the adapter `readdir` wrapper. -/
def readdir (cfg : SecurityConfig) (fsys : FileSystem) (dirPath : String) : Except SecError FsOp :=
  match validatePathWithSymlinkCheck cfg fsys dirPath true with
  | Except.ok validatedPath => Except.ok (FsOp.readdir validatedPath)
  | Except.error e => Except.error e

/-- Embedding of the adapter `stat` wrapper. -/
def stat (cfg : SecurityConfig) (fsys : FileSystem) (filePath : String) : Except SecError FsOp :=
  match validatePathWithSymlinkCheck cfg fsys filePath true with
  | Except.ok validatedPath => Except.ok (FsOp.stat validatedPath)
  | Except.error e => Except.error e

/-- Embedding of the adapter `rm` wrapper. -/
def rm (cfg : SecurityConfig) (fsys : FileSystem) (filePath : String) : Except SecError FsOp :=
  match validatePathWithSymlinkCheck cfg fsys filePath true with
  | Except.ok validatedPath => Except.ok (FsOp.rm validatedPath)
  | Except.error e => Except.error e

/-- Embedding of the adapter `unlink` wrapper. -/
def unlink (cfg : SecurityConfig) (fsys : FileSystem) (filePath : String) : Except SecError FsOp :=
  match validatePathWithSymlinkCheck cfg fsys filePath true with
  | Except.ok validatedPath => Except.ok (FsOp.unlink validatedPath)
  | Except.error e => Except.error e

/-- Embedding of the adapter `copyFile` wrapper: the source must exist,
the destination is validated with the parent fallback; the source is
validated first, so a source failure prevents the destination lookup. -/
def copyFile (cfg : SecurityConfig) (fsys : FileSystem) (src dest : String) : Except SecError FsOp :=
  match validatePathWithSymlinkCheck cfg fsys src true with
  | Except.error e => Except.error e
  | Except.ok validatedSrc =>
    match validatePathWithSymlinkCheck cfg fsys dest false with
    | Except.error e => Except.error e
    | Except.ok validatedDest => Except.ok (FsOp.copyFile validatedSrc validatedDest)

/-- Embedding of the adapter `appendFile` wrapper. -/
def appendFile (cfg : SecurityConfig) (fsys : FileSystem) (filePath : String) : Except SecError FsOp :=
  match validatePathWithSymlinkCheck cfg fsys filePath false with
  | Except.ok validatedPath => Except.ok (FsOp.appendFile validatedPath)
  | Except.error e => Except.error e

/-- Embedding of the adapter `rename` wrapper: source with
`requireExists := true`, destination with `requireExists := false`. -/
def rename (cfg : SecurityConfig) (fsys : FileSystem) (oldPath newPath : String) : Except SecError FsOp :=
  match validatePathWithSymlinkCheck cfg fsys oldPath true with
  | Except.error e => Except.error e
  | Except.ok validatedOldPath =>
    match validatePathWithSymlinkCheck cfg fsys newPath false with
    | Except.error e => Except.error e
    | Except.ok validatedNewPath => Except.ok (FsOp.rename validatedOldPath validatedNewPath)

/-- Embedding of the adapter `lstat` wrapper: deliberately uses the plain
`validatePath`, because lstat inspects symlinks themselves. -/
def lstat (cfg : SecurityConfig) (filePath : String) : Except SecError FsOp :=
  match validatePath cfg filePath with
  | Except.ok validatedPath => Except.ok (FsOp.lstat validatedPath)
  | Except.error e => Except.error e

end Adapter

/-- JavaScript value found in a request body field, as far as the
validate-paths middleware distinguishes them: `undef` models an absent
field (`undefined`), and the remaining constructors model `null`, strings,
arrays, and the other scalar shapes whose only relevance is their `typeof`
tag. -/
inductive JsValue where
  | undef
  | null
  | str (s : String)
  | boolean (b : Bool)
  | number
  | arr (elems : List JsValue)

/-- The `typeof` tag of a modelled JavaScript value (`typeof null` and
`typeof []` are both `"object"`). -/
def typeofStr : JsValue → String
  | JsValue.undef => "undefined"
  | JsValue.null => "object"
  | JsValue.str _ => "string"
  | JsValue.boolean _ => "boolean"
  | JsValue.number => "number"
  | JsValue.arr _ => "object"

/-- Message of a `PathNotAllowedError` (security.ts lines 24-29) built
from the constructor input. -/
def pathNotAllowedMessage (filePath : String) : String :=
  "Path not allowed: " ++ filePath ++ ". Must be within ALLOWED_ROOT_DIRECTORY or DATA_DIR."

/-- Message of an `InvalidPathTypeError` (validate-paths.ts lines 13-18). -/
def invalidTypeMessage (paramName expectedType actualType : String) : String :=
  "Invalid type for '" ++ paramName ++ "': expected " ++ expectedType ++ ", got " ++ actualType

/-- Error raised while validating one middleware parameter: either the
`PathNotAllowedError` escaping `validatePath` or an
`InvalidPathTypeError` from the type assertions, each carrying its
user-visible message. -/
inductive MwError where
  | pathNotAllowed (message : String)
  | invalidType (message : String)
deriving DecidableEq, Repr

/-- Outcome of running the middleware on a request: `next()` was called,
an error response with the given status code and message was sent, or an
unexpected error was re-thrown (unreachable with the modelled
validators). -/
inductive MwOutcome where
  | nextCalled
  | respond (status : Nat) (message : String)
  | rethrown
deriving DecidableEq, Repr

/-- Model of `assertValidPathString` followed by `validatePath` applied to
one present body value (validate-paths.ts lines 27-31 and the call sites):
a non-string raises `InvalidPathTypeError`, a string outside the boundary
raises `PathNotAllowedError`, an allowed string passes. -/
def checkPathValue (cfg : SecurityConfig) (errName : String) (v : JsValue) : Option MwError :=
  match v with
  | JsValue.str s =>
    match validatePath cfg s with
    | Except.ok _ => none
    | Except.error (SecError.pathNotAllowed input) =>
      some (MwError.pathNotAllowed (pathNotAllowedMessage input))
    | Except.error SecError.enoent => some (MwError.pathNotAllowed "")
  | v => some (MwError.invalidType (invalidTypeMessage errName "string" (typeofStr v)))

/-- Validation of the elements of an array parameter (validate-paths.ts
lines 76-81): each element must be a string and pass `validatePath`; the
error message names the element as `name[i]`. -/
def checkArrayElems (cfg : SecurityConfig) (actualName : String) :
    List JsValue → Nat → Option MwError
  | [], _ => none
  | v :: rest, i =>
    match checkPathValue cfg (actualName ++ "[" ++ toString i ++ "]") v with
    | some e => some e
    | none => checkArrayElems cfg actualName rest (i + 1)

/-- Validation of a single parameter name from the list given to
`validatePathParams` (validate-paths.ts lines 48-90), including the
`name?` optional and `name[]` array syntaxes. `none` means the loop moves
on to the next name. -/
def validateOneParam (cfg : SecurityConfig) (paramName : String)
    (body : String → JsValue) : Option MwError :=
  if jsEndsWith paramName "?" then
    let actualName := jsDropRight paramName 1
    match body actualName with
    | JsValue.undef => none
    | JsValue.null => none
    | v => checkPathValue cfg actualName v
  else if jsEndsWith paramName "[]" then
    let actualName := jsDropRight paramName 2
    match body actualName with
    | JsValue.undef => none
    | JsValue.null => none
    | JsValue.arr vs => checkArrayElems cfg actualName vs 0
    | v => some (MwError.invalidType (invalidTypeMessage actualName "array" (typeofStr v)))
  else
    match body paramName with
    | JsValue.undef => none
    | JsValue.null => none
    | v => checkPathValue cfg paramName v

/-- The middleware's parameter loop: the first failing parameter aborts
the loop (a thrown error leaves the `for` statement). -/
def runParams (cfg : SecurityConfig) (names : List String)
    (body : String → JsValue) : Option MwError :=
  match names with
  | [] => none
  | n :: rest =>
    match validateOneParam cfg n body with
    | some e => some e
    | none => runParams cfg rest body

/-- Embedding of the middleware produced by `validatePathParams`
(validate-paths.ts lines 45-114): run the parameter loop, then call
`next()` on success, map `PathNotAllowedError` to a 403 response and
`InvalidPathTypeError` to a 400 response. -/
def validatePathParams (cfg : SecurityConfig) (paramNames : List String)
    (body : String → JsValue) : MwOutcome :=
  match runParams cfg paramNames body with
  | none => MwOutcome.nextCalled
  | some (MwError.pathNotAllowed m) => MwOutcome.respond 403 m
  | some (MwError.invalidType m) => MwOutcome.respond 400 m

/-- Fuel-indexed walk from a segment list toward the root, stopping at the
first list of segments whose path has a real path on the filesystem; fuel
equal to the list length always suffices because every step drops the last
segment. -/
def nearestExistingFuel (fsys : FileSystem) : Nat → List (List Char) → List (List Char)
  | _, [] => []
  | 0, l => l
  | Nat.succ n, s :: ss =>
    if (fsys.realpathFn (String.mk ('/' :: joinCh (s :: ss)))).isSome then s :: ss
    else nearestExistingFuel fsys n (s :: ss).dropLast

/-- Segments of the nearest ancestor of the given segment list that exists
on the filesystem (in the sense that `realpathSync` succeeds on it), the
root if none does. -/
def nearestExistingAncestor (fsys : FileSystem) (segs : List (List Char)) : List (List Char) :=
  nearestExistingFuel fsys segs.length segs

/-- Reconstruction of a would-be child path under a resolved ancestor:
append the remaining segments below the ancestor one by one. -/
def rebuildUnder (realAncestor : String) (rest : List (List Char)) : String :=
  String.mk (rest.foldl (fun acc seg => acc ++ '/' :: seg) realAncestor.data)

/-- Modelled from the spec: the behaviour claim C3 attributes to
`validatePathWithSymlinkCheck` on a non-existent path with
`requireExists := false` — "walks up to the nearest existing ancestor
directory, resolves *its* real path, validates that, and returns the
would-be child path reconstructed under the resolved ancestor". This
definition follows the claim's words, for comparison with the embedding of
the source, which only ever inspects the immediate parent. -/
def claimedNonexistentValidation (cfg : SecurityConfig) (fsys : FileSystem)
    (filePath : String) : Except SecError String :=
  let segs := resolvedSegs cfg.cwd filePath
  let ancSegs := nearestExistingAncestor fsys segs.dropLast
  let ancPath := String.mk ('/' :: joinCh ancSegs)
  match fsys.realpathFn ancPath with
  | some realAncestor =>
    if isPathAllowed cfg realAncestor then
      Except.ok (rebuildUnder realAncestor (segs.drop ancSegs.length))
    else
      Except.error (SecError.pathNotAllowed filePath)
  | none => Except.error SecError.enoent


deriving instance DecidableEq for Except

/-- Strict configuration with root boundary `/allowed` used by the
concrete scenarios below. -/
def cfgEx : SecurityConfig := ⟨"/", SecurityMode.strict, some "/allowed", none⟩

/-- Concrete filesystem for the symlink scenarios: `/`, `/allowed` and
`/allowed/a` exist, and `/allowed/a` is a symbolic link whose real path
`/outside/a` escapes the boundary. -/
def fsEx : FileSystem :=
  ⟨fun s => s == "/" || s == "/allowed" || s == "/allowed/a",
   fun s =>
     if s = "/allowed/a" then some "/outside/a"
     else if s = "/allowed" then some "/allowed"
     else if s = "/" then some "/" else none⟩

/-- Unfolding of the string constructor's character list. -/
@[simp] theorem data_mk (l : List Char) : (String.mk l).data = l := rfl

/-- Appending strings appends their character lists. -/
theorem data_append (a b : String) : (a ++ b).data = a.data ++ b.data := by
  cases a; cases b; rfl

/-- The splitter never returns an empty list of segments. -/
theorem splitCh_ne_nil (s : List Char) : splitCh s ≠ [] := by
  cases s with
  | nil => simp [splitCh]
  | cons c cs => simp only [splitCh]; split <;> simp

/-- Segments produced by the splitter contain no separator. -/
theorem mem_splitCh_no_sep (s : List Char) : ∀ t ∈ splitCh s, '/' ∉ t := by
  induction s with
  | nil =>
    intro t ht
    simp [splitCh] at ht
    simp [ht]
  | cons c cs ih =>
    intro t ht
    by_cases hc : c = '/'
    · subst hc
      simp [splitCh] at ht
      rcases ht with h | h
      · simp [h]
      · exact ih t h
    · rcases hx : splitCh cs with _ | ⟨x, xs⟩
      · exact absurd hx (splitCh_ne_nil cs)
      · simp [splitCh, hc, hx] at ht
        rcases ht with h | h
        · subst h
          intro hmem
          rcases List.mem_cons.mp hmem with h1 | h1
          · exact hc h1.symm
          · exact ih x (by rw [hx]; simp) h1
        · exact ih t (by rw [hx]; simp [h]) 

/-- A separator-free character list splits into itself alone. -/
theorem splitCh_of_no_sep (t : List Char) (h : '/' ∉ t) : splitCh t = [t] := by
  induction t with
  | nil => rfl
  | cons c cs ih =>
    have hc : c ≠ '/' := fun hh => h (hh ▸ List.mem_cons_self c cs)
    have hcs : '/' ∉ cs := fun hh => h (List.mem_cons_of_mem c hh)
    simp [splitCh, hc, ih hcs]

/-- Splitting after a separator that follows a separator-free block peels
off that block. -/
theorem splitCh_append_sep (t u : List Char) (h : '/' ∉ t) :
    splitCh (t ++ '/' :: u) = t :: splitCh u := by
  induction t with
  | nil => simp [splitCh]
  | cons c cs ih =>
    have hc : c ≠ '/' := fun hh => h (hh ▸ List.mem_cons_self c cs)
    have hcs : '/' ∉ cs := fun hh => h (List.mem_cons_of_mem c hh)
    simp [splitCh, hc, ih hcs]

/-- Splitting inverts joining on nonempty separator-free segment lists. -/
theorem splitCh_joinCh (L : List (List Char)) (hL : L ≠ []) (h : ∀ t ∈ L, '/' ∉ t) :
    splitCh (joinCh L) = L := by
  induction L with
  | nil => exact absurd rfl hL
  | cons t ts ih =>
    cases ts with
    | nil => simpa [joinCh] using splitCh_of_no_sep t (h t (by simp))
    | cons s ss =>
      have hjoin : joinCh (t :: s :: ss) = t ++ '/' :: joinCh (s :: ss) := rfl
      rw [hjoin, splitCh_append_sep t _ (h t (by simp))]
      rw [ih (by simp) (fun x hx => h x (List.mem_cons_of_mem _ hx))]

/-- A trailing separator contributes one final empty segment. -/
theorem splitCh_append_last_sep (a : List Char) :
    splitCh (a ++ ['/']) = splitCh a ++ [[]] := by
  induction a with
  | nil => rfl
  | cons c a' ih =>
    rcases hx : splitCh a' with _ | ⟨x, xs⟩
    · exact absurd hx (splitCh_ne_nil a')
    · by_cases hc : c = '/'
      · subst hc; simp [splitCh, ih, hx]
      · simp [splitCh, hc, ih, hx]

/-- Folding the normalization step over ordinary segments (no empties, no
dots) just appends them. -/
theorem foldl_resolveStep_ordinary (L : List (List Char)) (acc : List (List Char))
    (h : ∀ t ∈ L, t ≠ [] ∧ t ≠ ['.'] ∧ t ≠ ['.', '.']) :
    L.foldl resolveStep acc = acc ++ L := by
  induction L generalizing acc with
  | nil => simp
  | cons t ts ih =>
    obtain ⟨h1, h2, h3⟩ := h t (by simp)
    have hstep : resolveStep acc t = acc ++ [t] := by
      simp [resolveStep, h1, h2, h3]
    simp only [List.foldl_cons, hstep]
    rw [ih _ (fun x hx => h x (by simp [hx]))]
    simp

/-- Every segment surviving normalization of separator-free segments is
ordinary and separator-free. -/
theorem mem_foldl_resolveStep (L : List (List Char)) (acc : List (List Char))
    (hacc : ∀ t ∈ acc, t ≠ [] ∧ t ≠ ['.'] ∧ t ≠ ['.', '.'] ∧ '/' ∉ t)
    (hL : ∀ t ∈ L, '/' ∉ t) :
    ∀ t ∈ L.foldl resolveStep acc, t ≠ [] ∧ t ≠ ['.'] ∧ t ≠ ['.', '.'] ∧ '/' ∉ t := by
  induction L generalizing acc with
  | nil => simpa using hacc
  | cons s ss ih =>
    intro t ht
    refine ih (resolveStep acc s) ?_ (fun x hx => hL x (by simp [hx])) t ht
    intro x hx
    by_cases h1 : s = [] ∨ s = ['.']
    · rw [resolveStep, if_pos h1] at hx
      exact hacc x hx
    · by_cases h2 : s = ['.', '.']
      · rw [resolveStep, if_neg h1, if_pos h2] at hx
        exact hacc x (List.dropLast_subset _ hx)
      · rw [resolveStep, if_neg h1, if_neg h2] at hx
        rcases List.mem_append.mp hx with h | h
        · exact hacc x h
        · have hxs : x = s := by simpa using h
          subst hxs
          push_neg at h1
          exact ⟨h1.1, h1.2, h2, hL x (by simp)⟩

/-- Segments of a normalized segment list are ordinary and
separator-free. -/
theorem mem_resolveSegsCh (segs : List (List Char)) (h : ∀ t ∈ segs, '/' ∉ t) :
    ∀ t ∈ resolveSegsCh segs, t ≠ [] ∧ t ≠ ['.'] ∧ t ≠ ['.', '.'] ∧ '/' ∉ t :=
  mem_foldl_resolveStep segs [] (by simp) h

/-- Segments of a resolved path are ordinary and separator-free. -/
theorem mem_resolvedSegs (cwd p : String) :
    ∀ t ∈ resolvedSegs cwd p, t ≠ [] ∧ t ≠ ['.'] ∧ t ≠ ['.', '.'] ∧ '/' ∉ t := by
  unfold resolvedSegs
  exact mem_resolveSegsCh _ (mem_splitCh_no_sep _)

/-- A leading empty segment is dropped by normalization. -/
theorem resolveSegsCh_cons_nil (L : List (List Char)) :
    resolveSegsCh ([] :: L) = resolveSegsCh L := by
  simp [resolveSegsCh, resolveStep]

/-- Normalizing the split of a rebuilt absolute path gives back the
segments it was built from. -/
theorem resolveSegsCh_roundtrip (L : List (List Char))
    (h : ∀ t ∈ L, t ≠ [] ∧ t ≠ ['.'] ∧ t ≠ ['.', '.'] ∧ '/' ∉ t) :
    resolveSegsCh (splitCh ('/' :: joinCh L)) = L := by
  have hsp : splitCh ('/' :: joinCh L) = [] :: splitCh (joinCh L) := by simp [splitCh]
  rw [hsp, resolveSegsCh_cons_nil]
  cases L with
  | nil => rfl
  | cons t ts =>
    rw [splitCh_joinCh (t :: ts) (by simp) (fun x hx => (h x hx).2.2.2)]
    have := foldl_resolveStep_ordinary (t :: ts) []
      (fun x hx => ⟨(h x hx).1, (h x hx).2.1, (h x hx).2.2.1⟩)
    simpa [resolveSegsCh] using this

/-- The character list of a resolved path. -/
theorem pathResolve_data (cwd p : String) :
    (pathResolve cwd p).data = '/' :: joinCh (resolvedSegs cwd p) := rfl

/-- Resolved segments of an absolute path ignore the working directory. -/
theorem resolvedSegs_of_abs (cwd q : String) (h : q.data.head? = some '/') :
    resolvedSegs cwd q = resolveSegsCh (splitCh q.data) := by
  unfold resolvedSegs
  rw [if_pos h]

/-- Re-resolving a resolved path does not change its segments. -/
theorem resolvedSegs_resolve (cwd p : String) :
    resolvedSegs cwd (pathResolve cwd p) = resolvedSegs cwd p := by
  rw [resolvedSegs_of_abs cwd _ (by rw [pathResolve_data]; rfl), pathResolve_data]
  exact resolveSegsCh_roundtrip _ (mem_resolvedSegs cwd p)

/-- Node's `path.resolve` is idempotent. -/
theorem pathResolve_idem (cwd p : String) :
    pathResolve cwd (pathResolve cwd p) = pathResolve cwd p := by
  show String.mk ('/' :: joinCh (resolvedSegs cwd (pathResolve cwd p))) = pathResolve cwd p
  rw [resolvedSegs_resolve]
  rfl

/-- The policy decision only depends on the resolved form of the
candidate. -/
theorem isPathAllowed_resolve (cfg : SecurityConfig) (p : String) :
    isPathAllowed cfg (pathResolve cfg.cwd p) = isPathAllowed cfg p := by
  unfold isPathAllowed
  rw [pathResolve_idem]

/-- Dropping the common prefix of a list and an extension of it leaves
exactly the extension. -/
theorem dropCommon_append (B x : List (List Char)) :
    dropCommon B (B ++ x) = ([], x) := by
  induction B with
  | nil => cases x <;> rfl
  | cons b bs ih => simp [dropCommon, ih]

/-- The head of a joined nonempty segment list is the head of its first
segment. -/
theorem joinCh_head? (r : List Char) (rs : List (List Char)) (h : r ≠ []) :
    (joinCh (r :: rs)).head? = r.head? := by
  cases rs with
  | nil => rfl
  | cons s ss =>
    show (r ++ '/' :: joinCh (s :: ss)).head? = r.head?
    cases r with
    | nil => exact absurd rfl h
    | cons c cs => rfl

/-- If a block does not begin with two dots, neither does that block
followed by a separator. -/
theorem not_dotdot_prefix_append (r w : List Char) (h : ¬ ['.', '.'] <+: r) :
    ¬ ['.', '.'] <+: (r ++ '/' :: w) := by
  rintro ⟨t, ht⟩
  cases r with
  | nil =>
    simp only [List.nil_append, List.cons_append] at ht
    injection ht with h1 h2
    exact absurd h1 (by decide)
  | cons c1 r1 =>
    cases r1 with
    | nil =>
      simp only [List.cons_append, List.nil_append] at ht
      injection ht with h1 h2
      injection h2 with h3 h4
      exact absurd h3 (by decide)
    | cons c2 r2 =>
      simp only [List.cons_append] at ht
      injection ht with h1 h2
      injection h2 with h3 h4
      subst h1
      subst h3
      exact h ⟨r2, rfl⟩

/-- A joined segment list does not start with `".."` unless its first
segment does. -/
theorem startsWith_dotdot_joinCh_false (r : List Char) (rs : List (List Char))
    (h : ¬ ['.', '.'] <+: r) :
    jsStartsWith (String.mk (joinCh (r :: rs))) ".." = false := by
  have hdd : (".." : String).data = ['.', '.'] := rfl
  rw [jsStartsWith, data_mk, hdd, Bool.eq_false_iff]
  intro hb
  have hpre := List.isPrefixOf_iff_prefix.mp hb
  cases rs with
  | nil => exact h (by simpa [joinCh] using hpre)
  | cons s ss =>
    have hj : joinCh (r :: s :: ss) = r ++ '/' :: joinCh (s :: ss) := rfl
    rw [hj] at hpre
    exact not_dotdot_prefix_append r _ h hpre

/-- A joined segment list whose first segment is nonempty and
separator-free is not an absolute path. -/
theorem pathIsAbsolute_joinCh_false (r : List Char) (rs : List (List Char))
    (h1 : r ≠ []) (h2 : '/' ∉ r) :
    pathIsAbsolute (String.mk (joinCh (r :: rs))) = false := by
  rw [pathIsAbsolute, data_mk, joinCh_head? r rs h1]
  cases r with
  | nil => exact absurd rfl h1
  | cons c cs =>
    have hc : c ≠ '/' := fun hh => h2 (hh ▸ List.mem_cons_self c cs)
    simp [hc]

/-- The containment primitive accepts the boundary itself. -/
theorem withinDir_self (cwd b : String) : isPathWithinDirectory cwd b b = true := by
  have h : dropCommon (resolvedSegs cwd b) (resolvedSegs cwd b) = ([], []) := by
    simpa using dropCommon_append (resolvedSegs cwd b) []
  simp [isPathWithinDirectory, pathRelative, h, jsStartsWith, pathIsAbsolute, joinCh,
    List.isPrefixOf]

/-- A trailing separator does not change the resolved segments of an
absolute path. -/
theorem resolvedSegs_trailing_sep (cwd b : String) (hb : pathIsAbsolute b = true) :
    resolvedSegs cwd (b ++ "/") = resolvedSegs cwd b := by
  have hb' : b.data.head? = some '/' := by simpa [pathIsAbsolute] using hb
  have hdata : (b ++ "/").data = b.data ++ [ '/' ] := by rw [data_append]
  have hhead : (b ++ "/").data.head? = some '/' := by
    rw [hdata]
    cases hd : b.data with
    | nil => rw [hd] at hb'; simp at hb'
    | cons c cs =>
      rw [hd] at hb'
      simpa using hb'
  unfold resolvedSegs
  rw [if_pos hhead, if_pos hb', hdata, splitCh_append_last_sep]
  unfold resolveSegsCh
  rw [List.foldl_append]
  simp [resolveStep]

/-- The containment primitive accepts the boundary with a trailing
separator. -/
theorem withinDir_trailing_sep (cwd b : String) (hb : pathIsAbsolute b = true) :
    isPathWithinDirectory cwd (b ++ "/") b = true := by
  have hseg := resolvedSegs_trailing_sep cwd b hb
  have h : dropCommon (resolvedSegs cwd b) (resolvedSegs cwd b) = ([], []) := by
    simpa using dropCommon_append (resolvedSegs cwd b) []
  simp [isPathWithinDirectory, pathRelative, hseg, h, jsStartsWith, pathIsAbsolute, joinCh,
    List.isPrefixOf]

/-- The containment primitive accepts any extension of the boundary's
segments whose first extra segment does not begin with two dots. -/
theorem withinDir_descendant (cwd bound cand : String) (r : List Char)
    (rs : List (List Char))
    (hseg : resolvedSegs cwd cand = resolvedSegs cwd bound ++ r :: rs)
    (hr : ¬ ['.', '.'] <+: r) :
    isPathWithinDirectory cwd cand bound = true := by
  have hmem : r ∈ resolvedSegs cwd cand := by rw [hseg]; simp
  obtain ⟨hne, -, -, hnosep⟩ := mem_resolvedSegs cwd cand r hmem
  have hdc : dropCommon (resolvedSegs cwd bound) (resolvedSegs cwd cand) = ([], r :: rs) := by
    rw [hseg]
    exact dropCommon_append _ _
  simp only [isPathWithinDirectory, pathRelative, hdc, List.map_nil, List.nil_append]
  rw [startsWith_dotdot_joinCh_false r rs hr, pathIsAbsolute_joinCh_false r rs hne hnosep]
  rfl

/-- Success characterization of `validatePath`: it succeeds exactly on
allowed resolved paths and returns the resolved path. -/
theorem validatePath_ok_iff (cfg : SecurityConfig) (p r : String) :
    validatePath cfg p = Except.ok r ↔
      (isPathAllowed cfg (pathResolve cfg.cwd p) = true ∧ r = pathResolve cfg.cwd p) := by
  unfold validatePath
  by_cases h : isPathAllowed cfg (pathResolve cfg.cwd p) = true
  · simp [h, eq_comm]
  · simp [Bool.eq_false_iff.mpr h, h]

/-- Failure characterization of `validatePath`: it fails exactly on denied
resolved paths, with a `PathNotAllowedError` carrying the original
input. -/
theorem validatePath_error_iff (cfg : SecurityConfig) (p : String) (e : SecError) :
    validatePath cfg p = Except.error e ↔
      (isPathAllowed cfg (pathResolve cfg.cwd p) = false ∧ e = SecError.pathNotAllowed p) := by
  unfold validatePath
  by_cases h : isPathAllowed cfg (pathResolve cfg.cwd p) = true
  · simp [h]
  · simp [Bool.eq_false_iff.mpr h, h, eq_comm]

/-- The policy predicate as a disjunction of its two boundary checks. -/
theorem isPathAllowed_eq_or (cwd : String) (mode : SecurityMode)
    (root dataDir : Option String) (p : String) :
    isPathAllowed ⟨cwd, mode, root, dataDir⟩ p =
      ((match dataDir with
        | some d => isPathWithinDirectory cwd (pathResolve cwd p) d
        | none => false) ||
       (match root with
        | none => decide (mode = SecurityMode.permissive)
        | some rt => isPathWithinDirectory cwd (pathResolve cwd p) rt)) := by
  simp only [isPathAllowed]
  cases hb : (match dataDir with
    | some d => isPathWithinDirectory cwd (pathResolve cwd p) d
    | none => false) <;> simp [hb]

/-- Claim C1: `isPathAllowed p` holds exactly when the resolved form of
`p` is contained in the data directory, or contained in the allowed root
directory, or no root is configured and the mode is permissive; in
particular, with no root in strict mode every path outside the data
directory is denied, and data-directory paths are allowed regardless of
mode or root. -/
theorem c1_isPathAllowed_policy (cfg : SecurityConfig) (p : String) :
    (isPathAllowed cfg p = true ↔
      ((∃ d, cfg.dataDirectory = some d ∧
          isPathWithinDirectory cfg.cwd (pathResolve cfg.cwd p) d = true) ∨
       (∃ root, cfg.allowedRootDirectory = some root ∧
          isPathWithinDirectory cfg.cwd (pathResolve cfg.cwd p) root = true) ∨
       (cfg.allowedRootDirectory = none ∧ cfg.securityMode = SecurityMode.permissive)))
    ∧ (cfg.allowedRootDirectory = none → cfg.securityMode = SecurityMode.strict →
        (∀ d, cfg.dataDirectory = some d →
          isPathWithinDirectory cfg.cwd (pathResolve cfg.cwd p) d = false) →
        isPathAllowed cfg p = false)
    ∧ (∀ d, cfg.dataDirectory = some d →
        isPathWithinDirectory cfg.cwd (pathResolve cfg.cwd p) d = true →
        isPathAllowed cfg p = true) := by
  obtain ⟨cwd, mode, root, dataDir⟩ := cfg
  rw [isPathAllowed_eq_or]
  refine ⟨?_, ?_, ?_⟩
  · rw [Bool.or_eq_true]
    cases dataDir <;> cases root <;> cases mode <;> simp
  · intro hroot hmode hdata
    subst hroot
    subst hmode
    cases dataDir with
    | none => simp
    | some d => simp [hdata d rfl]
  · intro d hd hwithin
    subst hd
    simp [hwithin]

/-- Witness for claim C1 at concrete configurations: a data-directory path
is allowed under a strict configuration with no root, and a path outside
the data directory is denied there. -/
theorem c1_isPathAllowed_policy_witness :
    isPathAllowed ⟨"/", SecurityMode.strict, none, some "/data"⟩ "/data/settings.json" = true
    ∧ isPathAllowed ⟨"/", SecurityMode.strict, none, some "/data"⟩ "/etc/passwd" = false := by
  constructor
  · exact (c1_isPathAllowed_policy ⟨"/", SecurityMode.strict, none, some "/data"⟩
      "/data/settings.json").2.2 "/data" rfl (by decide)
  · exact (c1_isPathAllowed_policy ⟨"/", SecurityMode.strict, none, some "/data"⟩
      "/etc/passwd").2.1 rfl rfl (by intro d hd; cases hd; decide)

/-- Counterexample to claim C2 as stated: `/allowed/..cfg` is a genuine
descendant of the boundary `/allowed` (its resolved segments extend the
boundary's segments), yet the containment primitive rejects it, because
the relative path `..cfg` starts with the two characters `".."`. -/
theorem c2_isPathWithinDirectory_counterexample :
    resolvedSegs "/" "/allowed/..cfg" =
      resolvedSegs "/" "/allowed" ++ [['.', '.', 'c', 'f', 'g']]
    ∧ pathRelative "/" "/allowed" "/allowed/..cfg" = "..cfg"
    ∧ isPathWithinDirectory "/" "/allowed/..cfg" "/allowed" = false := by
  refine ⟨by decide, by decide, by decide⟩

/-- Claim C2 (amended): the containment primitive accepts the boundary
itself (with or without a trailing separator) and every descendant whose
first segment below the boundary does not begin with the two characters
`".."`; it rejects any candidate whose relative path from the boundary
starts with `".."` or is absolute, in particular the sibling `/allowed2`
of the boundary `/allowed`. -/
theorem c2_isPathWithinDirectory_amended (cwd bound cand : String)
    (hb : pathIsAbsolute bound = true) :
    (isPathWithinDirectory cwd bound bound = true)
    ∧ (isPathWithinDirectory cwd (bound ++ "/") bound = true)
    ∧ (∀ r rs, resolvedSegs cwd cand = resolvedSegs cwd bound ++ r :: rs →
        ¬ ['.', '.'] <+: r → isPathWithinDirectory cwd cand bound = true)
    ∧ ((jsStartsWith (pathRelative cwd bound cand) ".." = true ∨
        pathIsAbsolute (pathRelative cwd bound cand) = true) →
        isPathWithinDirectory cwd cand bound = false)
    ∧ (isPathWithinDirectory "/" "/allowed2" "/allowed" = false) := by
  refine ⟨withinDir_self cwd bound, withinDir_trailing_sep cwd bound hb, ?_, ?_, by decide⟩
  · intro r rs hseg hr
    exact withinDir_descendant cwd bound cand r rs hseg hr
  · intro h
    rcases h with h | h <;> simp [isPathWithinDirectory, h]

/-- Witness for the amended claim C2 at a concrete boundary: `/allowed`
with and without a trailing separator is accepted, and so is the
descendant `/allowed/sub`. -/
theorem c2_isPathWithinDirectory_amended_witness :
    isPathWithinDirectory "/" "/allowed" "/allowed" = true
    ∧ isPathWithinDirectory "/" ("/allowed" ++ "/") "/allowed" = true
    ∧ isPathWithinDirectory "/" "/allowed/sub" "/allowed" = true := by
  have h := c2_isPathWithinDirectory_amended "/" "/allowed" "/allowed/sub" (by decide)
  exact ⟨h.1, h.2.1, h.2.2.1 ['s', 'u', 'b'] [] (by decide) (by decide)⟩

/-- Claim C8: the containment check is a character-level comparison — any
candidate whose relative path from the boundary starts with the two
characters `".."` is rejected, and consequently the genuine descendant
`/allowed/..cfg` of the boundary `/allowed` is denied by `isPathAllowed`
in a configuration whose allowed root is `/allowed`, even though its
resolved segments lie strictly below the boundary. -/
theorem c8_dotdot_prefix_denial (cwd cand bound : String) :
    (jsStartsWith (pathRelative cwd bound cand) ".." = true →
      isPathWithinDirectory cwd cand bound = false)
    ∧ (resolvedSegs "/" "/allowed/..cfg" =
        resolvedSegs "/" "/allowed" ++ [['.', '.', 'c', 'f', 'g']]
      ∧ isPathWithinDirectory "/" "/allowed/..cfg" "/allowed" = false
      ∧ isPathAllowed ⟨"/", SecurityMode.strict, some "/allowed", none⟩ "/allowed/..cfg" = false) := by
  refine ⟨?_, by decide, by decide, by decide⟩
  intro h
  simp [isPathWithinDirectory, h]

/-- Witness for claim C8: a path with a parent-traversal relative path is
rejected at a concrete input. -/
theorem c8_dotdot_prefix_denial_witness :
    isPathWithinDirectory "/" "/etc" "/allowed" = false :=
  (c8_dotdot_prefix_denial "/" "/etc" "/allowed").1 (by decide)

/-- Claim C6: `validatePath` returns the resolved absolute form of its
input exactly when `isPathAllowed` holds of that resolved form, and
otherwise fails with a `PathNotAllowedError` carrying the original input;
it fails in no other case. -/
theorem c6_validatePath_contract (cfg : SecurityConfig) (p : String) :
    (isPathAllowed cfg (pathResolve cfg.cwd p) = true →
      validatePath cfg p = Except.ok (pathResolve cfg.cwd p))
    ∧ (isPathAllowed cfg (pathResolve cfg.cwd p) = false →
      validatePath cfg p = Except.error (SecError.pathNotAllowed p))
    ∧ (∀ e, validatePath cfg p = Except.error e → e = SecError.pathNotAllowed p) := by
  refine ⟨?_, ?_, ?_⟩
  · intro h
    exact (validatePath_ok_iff cfg p _).mpr ⟨h, rfl⟩
  · intro h
    exact (validatePath_error_iff cfg p _).mpr ⟨h, rfl⟩
  · intro e he
    exact ((validatePath_error_iff cfg p e).mp he).2

/-- Witness for claim C6 at a concrete configuration: an in-boundary path
is returned resolved and an out-of-boundary path raises the error carrying
the original input. -/
theorem c6_validatePath_contract_witness :
    validatePath ⟨"/", SecurityMode.strict, some "/allowed", none⟩ "/allowed/x/../y"
      = Except.ok "/allowed/y"
    ∧ validatePath ⟨"/", SecurityMode.strict, some "/allowed", none⟩ "/allowed/../etc/passwd"
      = Except.error (SecError.pathNotAllowed "/allowed/../etc/passwd") := by
  constructor
  · have h := (c6_validatePath_contract ⟨"/", SecurityMode.strict, some "/allowed", none⟩
      "/allowed/x/../y").1 (by decide)
    rw [h]
    rfl
  · exact (c6_validatePath_contract ⟨"/", SecurityMode.strict, some "/allowed", none⟩
      "/allowed/../etc/passwd").2.1 (by decide)

/-- Claim C7: `validatePath` returns an already-resolved allowed path
unchanged, and is idempotent on allowed paths: whenever it succeeds, its
output validates to itself. -/
theorem c7_validatePath_idempotent (cfg : SecurityConfig) (p : String) :
    (pathResolve cfg.cwd p = p → isPathAllowed cfg p = true →
      validatePath cfg p = Except.ok p)
    ∧ (∀ r, validatePath cfg p = Except.ok r → validatePath cfg r = Except.ok r) := by
  constructor
  · intro hres hallow
    refine (validatePath_ok_iff cfg p p).mpr ⟨?_, hres.symm⟩
    rw [hres]
    exact hallow
  · intro r hr
    obtain ⟨hallow, hres⟩ := (validatePath_ok_iff cfg p r).mp hr
    subst hres
    have h2 : pathResolve cfg.cwd (pathResolve cfg.cwd p) = pathResolve cfg.cwd p :=
      pathResolve_idem cfg.cwd p
    refine (validatePath_ok_iff cfg (pathResolve cfg.cwd p) (pathResolve cfg.cwd p)).mpr
      ⟨?_, h2.symm⟩
    rw [h2]
    exact hallow

/-- Witness for claim C7: a resolved in-boundary path validates to itself,
and validating the output of a successful validation is a fixpoint. -/
theorem c7_validatePath_idempotent_witness :
    validatePath ⟨"/", SecurityMode.strict, some "/allowed", none⟩ "/allowed/sub/y"
      = Except.ok "/allowed/sub/y"
    ∧ validatePath ⟨"/", SecurityMode.strict, some "/allowed", none⟩ "/allowed/w"
      = Except.ok "/allowed/w" := by
  constructor
  · exact (c7_validatePath_idempotent ⟨"/", SecurityMode.strict, some "/allowed", none⟩
      "/allowed/sub/y").1 (by decide) (by decide)
  · exact (c7_validatePath_idempotent ⟨"/", SecurityMode.strict, some "/allowed", none⟩
      "/allowed/z/../w").2 "/allowed/w" (by rfl)

/-- Counterexample to claim C3 as stated: for the non-existent path
`/allowed/a/b/c` the nearest existing ancestor is `/allowed/a`, whose real
path `/outside/a` escapes the boundary, so the claimed walk-up validation
rejects the path — but the source only inspects the immediate parent
`/allowed/a/b`, finds it missing, falls back to the non-symlink-aware
`validatePath`, and accepts. -/
theorem c3_walkup_counterexample :
    fsEx.lstatExists (pathResolve "/" "/allowed/a/b/c") = false
    ∧ nearestExistingAncestor fsEx (resolvedSegs "/" "/allowed/a/b/c").dropLast =
        resolvedSegs "/" "/allowed/a"
    ∧ fsEx.realpathFn "/allowed/a" = some "/outside/a"
    ∧ isPathAllowed cfgEx "/outside/a" = false
    ∧ claimedNonexistentValidation cfgEx fsEx "/allowed/a/b/c" =
        Except.error (SecError.pathNotAllowed "/allowed/a/b/c")
    ∧ validatePathWithSymlinkCheck cfgEx fsEx "/allowed/a/b/c" false =
        Except.ok "/allowed/a/b/c"
    ∧ validatePathWithSymlinkCheck cfgEx fsEx "/allowed/a/b/c" false ≠
        claimedNonexistentValidation cfgEx fsEx "/allowed/a/b/c" := by
  refine ⟨by decide, by decide, by decide, by decide, by decide, by decide, by decide⟩

/-- Claim C3 (amended): for a path that does not exist,
`validatePathWithSymlinkCheck` with `requireExists := false` inspects only
the immediate parent directory — if the parent has a real path it is
validated and the child is rebuilt under it, and if the parent is missing
too the function falls back to the non-symlink-aware `validatePath`. -/
theorem c3_nonexistent_uses_parent (cfg : SecurityConfig) (fsys : FileSystem) (p : String)
    (h : fsys.lstatExists (pathResolve cfg.cwd p) = false) :
    validatePathWithSymlinkCheck cfg fsys p false =
      (match fsys.realpathFn (pathDirname (pathResolve cfg.cwd p)) with
       | some realParentPath =>
         if isPathAllowed cfg realParentPath = true then
           Except.ok (pathJoin realParentPath (pathBasename (pathResolve cfg.cwd p)))
         else
           Except.error (SecError.pathNotAllowed
             (p ++ " (parent resolves to " ++ realParentPath ++ ")"))
       | none => validatePath cfg p) := by
  unfold validatePathWithSymlinkCheck
  simp only [h, Bool.false_eq_true, if_false, Bool.not_eq_true']
  cases hrp : fsys.realpathFn (pathDirname (pathResolve cfg.cwd p)) with
  | none => simp [hrp]
  | some rp =>
    by_cases ha : isPathAllowed cfg rp = true
    · simp [hrp, ha]
    · simp [hrp, ha, Bool.eq_false_iff.mpr ha]

/-- Witness for the amended claim C3: creating a new file directly under
the existing boundary directory validates the real parent and rebuilds the
child under it. -/
theorem c3_nonexistent_uses_parent_witness :
    validatePathWithSymlinkCheck cfgEx fsEx "/allowed/newfile" false =
      Except.ok "/allowed/newfile" := by
  rw [c3_nonexistent_uses_parent cfgEx fsEx "/allowed/newfile" (by decide)]
  decide

/-- The `access` wrapper maps its validator's result. -/
theorem access_eq (cfg : SecurityConfig) (fsys : FileSystem) (p : String) :
    Adapter.access cfg fsys p =
      (validatePathWithSymlinkCheck cfg fsys p true).map FsOp.access := by
  unfold Adapter.access
  cases validatePathWithSymlinkCheck cfg fsys p true <;> rfl

/-- The `readFile` wrapper maps its validator's result. -/
theorem readFile_eq (cfg : SecurityConfig) (fsys : FileSystem) (p : String) :
    Adapter.readFile cfg fsys p =
      (validatePathWithSymlinkCheck cfg fsys p true).map FsOp.readFile := by
  unfold Adapter.readFile
  cases validatePathWithSymlinkCheck cfg fsys p true <;> rfl

/-- The `writeFile` wrapper maps its validator's result. -/
theorem writeFile_eq (cfg : SecurityConfig) (fsys : FileSystem) (p : String) :
    Adapter.writeFile cfg fsys p =
      (validatePathWithSymlinkCheck cfg fsys p false).map FsOp.writeFile := by
  unfold Adapter.writeFile
  cases validatePathWithSymlinkCheck cfg fsys p false <;> rfl

/-- The `mkdir` wrapper maps its validator's result. -/
theorem mkdir_eq (cfg : SecurityConfig) (fsys : FileSystem) (p : String) :
    Adapter.mkdir cfg fsys p =
      (validatePathWithSymlinkCheck cfg fsys p false).map FsOp.mkdir := by
  unfold Adapter.mkdir
  cases validatePathWithSymlinkCheck cfg fsys p false <;> rfl

/-- The `readdir` wrapper maps its validator's result. -/
theorem readdir_eq (cfg : SecurityConfig) (fsys : FileSystem) (p : String) :
    Adapter.readdir cfg fsys p =
      (validatePathWithSymlinkCheck cfg fsys p true).map FsOp.readdir := by
  unfold Adapter.readdir
  cases validatePathWithSymlinkCheck cfg fsys p true <;> rfl

/-- The `stat` wrapper maps its validator's result. -/
theorem stat_eq (cfg : SecurityConfig) (fsys : FileSystem) (p : String) :
    Adapter.stat cfg fsys p =
      (validatePathWithSymlinkCheck cfg fsys p true).map FsOp.stat := by
  unfold Adapter.stat
  cases validatePathWithSymlinkCheck cfg fsys p true <;> rfl

/-- The `rm` wrapper maps its validator's result. -/
theorem rm_eq (cfg : SecurityConfig) (fsys : FileSystem) (p : String) :
    Adapter.rm cfg fsys p =
      (validatePathWithSymlinkCheck cfg fsys p true).map FsOp.rm := by
  unfold Adapter.rm
  cases validatePathWithSymlinkCheck cfg fsys p true <;> rfl

/-- The `unlink` wrapper maps its validator's result. -/
theorem unlink_eq (cfg : SecurityConfig) (fsys : FileSystem) (p : String) :
    Adapter.unlink cfg fsys p =
      (validatePathWithSymlinkCheck cfg fsys p true).map FsOp.unlink := by
  unfold Adapter.unlink
  cases validatePathWithSymlinkCheck cfg fsys p true <;> rfl

/-- The `appendFile` wrapper maps its validator's result. -/
theorem appendFile_eq (cfg : SecurityConfig) (fsys : FileSystem) (p : String) :
    Adapter.appendFile cfg fsys p =
      (validatePathWithSymlinkCheck cfg fsys p false).map FsOp.appendFile := by
  unfold Adapter.appendFile
  cases validatePathWithSymlinkCheck cfg fsys p false <;> rfl

/-- The `lstat` wrapper maps the plain validator's result. -/
theorem lstat_eq (cfg : SecurityConfig) (p : String) :
    Adapter.lstat cfg p = (validatePath cfg p).map FsOp.lstat := by
  unfold Adapter.lstat
  cases validatePath cfg p <;> rfl

/-- The `copyFile` wrapper validates the source first, then the
destination, then issues the call with both validated paths. -/
theorem copyFile_eq (cfg : SecurityConfig) (fsys : FileSystem) (src dest : String) :
    Adapter.copyFile cfg fsys src dest =
      (validatePathWithSymlinkCheck cfg fsys src true).bind (fun s =>
        (validatePathWithSymlinkCheck cfg fsys dest false).map (FsOp.copyFile s)) := by
  unfold Adapter.copyFile
  cases validatePathWithSymlinkCheck cfg fsys src true with
  | error e => rfl
  | ok v => cases validatePathWithSymlinkCheck cfg fsys dest false <;> rfl

/-- The `rename` wrapper validates the source first, then the destination,
then issues the call with both validated paths. -/
theorem rename_eq (cfg : SecurityConfig) (fsys : FileSystem) (src dest : String) :
    Adapter.rename cfg fsys src dest =
      (validatePathWithSymlinkCheck cfg fsys src true).bind (fun s =>
        (validatePathWithSymlinkCheck cfg fsys dest false).map (FsOp.rename s)) := by
  unfold Adapter.rename
  cases validatePathWithSymlinkCheck cfg fsys src true with
  | error e => rfl
  | ok v => cases validatePathWithSymlinkCheck cfg fsys dest false <;> rfl

/-- Claim C4: every adapter operation selects its validator by operation
class — the read, list, stat, remove, unlink and access-check wrappers use
the symlink-aware validator with `requireExists = true`; the write,
create-directory and append wrappers use it with `requireExists = false`;
copy and rename validate the source with `requireExists = true` and the
destination with `requireExists = false`; and `lstat` alone uses the
non-symlink-following `validatePath`. -/
theorem c4_adapter_validator_selection (cfg : SecurityConfig) (fsys : FileSystem)
    (p q : String) :
    Adapter.access cfg fsys p = (validatePathWithSymlinkCheck cfg fsys p true).map FsOp.access
    ∧ Adapter.readFile cfg fsys p = (validatePathWithSymlinkCheck cfg fsys p true).map FsOp.readFile
    ∧ Adapter.readdir cfg fsys p = (validatePathWithSymlinkCheck cfg fsys p true).map FsOp.readdir
    ∧ Adapter.stat cfg fsys p = (validatePathWithSymlinkCheck cfg fsys p true).map FsOp.stat
    ∧ Adapter.rm cfg fsys p = (validatePathWithSymlinkCheck cfg fsys p true).map FsOp.rm
    ∧ Adapter.unlink cfg fsys p = (validatePathWithSymlinkCheck cfg fsys p true).map FsOp.unlink
    ∧ Adapter.writeFile cfg fsys p = (validatePathWithSymlinkCheck cfg fsys p false).map FsOp.writeFile
    ∧ Adapter.mkdir cfg fsys p = (validatePathWithSymlinkCheck cfg fsys p false).map FsOp.mkdir
    ∧ Adapter.appendFile cfg fsys p = (validatePathWithSymlinkCheck cfg fsys p false).map FsOp.appendFile
    ∧ Adapter.copyFile cfg fsys p q = (validatePathWithSymlinkCheck cfg fsys p true).bind (fun s =>
        (validatePathWithSymlinkCheck cfg fsys q false).map (FsOp.copyFile s))
    ∧ Adapter.rename cfg fsys p q = (validatePathWithSymlinkCheck cfg fsys p true).bind (fun s =>
        (validatePathWithSymlinkCheck cfg fsys q false).map (FsOp.rename s))
    ∧ Adapter.lstat cfg p = (validatePath cfg p).map FsOp.lstat :=
  ⟨access_eq cfg fsys p, readFile_eq cfg fsys p, readdir_eq cfg fsys p, stat_eq cfg fsys p,
   rm_eq cfg fsys p, unlink_eq cfg fsys p, writeFile_eq cfg fsys p, mkdir_eq cfg fsys p,
   appendFile_eq cfg fsys p, copyFile_eq cfg fsys p q, rename_eq cfg fsys p q, lstat_eq cfg p⟩

/-- Mapping propagates a validator failure unchanged. -/
theorem except_map_error (x : Except SecError String) (f : String → FsOp) (e : SecError)
    (h : x = Except.error e) : x.map f = Except.error e := by
  rw [h]; rfl

/-- Mapping applies the call constructor to a validated path. -/
theorem except_map_ok (x : Except SecError String) (f : String → FsOp) (v : String)
    (h : x = Except.ok v) : x.map f = Except.ok (f v) := by
  rw [h]; rfl

/-- Claim C5: for every adapter operation, a validation failure of any
path argument yields that failure before any filesystem call is recorded
(the result is an `error` carrying no `FsOp`; in particular a source
failure of `copyFile`/`rename` is returned before the destination is even
validated), and on success the recorded filesystem call receives exactly
the validator's resolved output, never the caller's original string. -/
theorem c5_adapter_short_circuit (cfg : SecurityConfig) (fsys : FileSystem) (p q : String) :
    ((∀ e, validatePathWithSymlinkCheck cfg fsys p true = Except.error e →
        Adapter.access cfg fsys p = Except.error e
        ∧ Adapter.readFile cfg fsys p = Except.error e
        ∧ Adapter.readdir cfg fsys p = Except.error e
        ∧ Adapter.stat cfg fsys p = Except.error e
        ∧ Adapter.rm cfg fsys p = Except.error e
        ∧ Adapter.unlink cfg fsys p = Except.error e)
    ∧ (∀ v, validatePathWithSymlinkCheck cfg fsys p true = Except.ok v →
        Adapter.access cfg fsys p = Except.ok (FsOp.access v)
        ∧ Adapter.readFile cfg fsys p = Except.ok (FsOp.readFile v)
        ∧ Adapter.readdir cfg fsys p = Except.ok (FsOp.readdir v)
        ∧ Adapter.stat cfg fsys p = Except.ok (FsOp.stat v)
        ∧ Adapter.rm cfg fsys p = Except.ok (FsOp.rm v)
        ∧ Adapter.unlink cfg fsys p = Except.ok (FsOp.unlink v)))
    ∧ ((∀ e, validatePathWithSymlinkCheck cfg fsys p false = Except.error e →
        Adapter.writeFile cfg fsys p = Except.error e
        ∧ Adapter.mkdir cfg fsys p = Except.error e
        ∧ Adapter.appendFile cfg fsys p = Except.error e)
    ∧ (∀ v, validatePathWithSymlinkCheck cfg fsys p false = Except.ok v →
        Adapter.writeFile cfg fsys p = Except.ok (FsOp.writeFile v)
        ∧ Adapter.mkdir cfg fsys p = Except.ok (FsOp.mkdir v)
        ∧ Adapter.appendFile cfg fsys p = Except.ok (FsOp.appendFile v)))
    ∧ ((∀ e, validatePathWithSymlinkCheck cfg fsys p true = Except.error e →
        Adapter.copyFile cfg fsys p q = Except.error e
        ∧ Adapter.rename cfg fsys p q = Except.error e)
    ∧ (∀ v e, validatePathWithSymlinkCheck cfg fsys p true = Except.ok v →
        validatePathWithSymlinkCheck cfg fsys q false = Except.error e →
        Adapter.copyFile cfg fsys p q = Except.error e
        ∧ Adapter.rename cfg fsys p q = Except.error e)
    ∧ (∀ v w, validatePathWithSymlinkCheck cfg fsys p true = Except.ok v →
        validatePathWithSymlinkCheck cfg fsys q false = Except.ok w →
        Adapter.copyFile cfg fsys p q = Except.ok (FsOp.copyFile v w)
        ∧ Adapter.rename cfg fsys p q = Except.ok (FsOp.rename v w)))
    ∧ ((∀ e, validatePath cfg p = Except.error e → Adapter.lstat cfg p = Except.error e)
    ∧ (∀ v, validatePath cfg p = Except.ok v → Adapter.lstat cfg p = Except.ok (FsOp.lstat v))) := by
  refine ⟨⟨?_, ?_⟩, ⟨?_, ?_⟩, ⟨?_, ?_, ?_⟩, ⟨?_, ?_⟩⟩
  · intro e h
    exact ⟨(access_eq cfg fsys p).trans (except_map_error _ _ e h),
      (readFile_eq cfg fsys p).trans (except_map_error _ _ e h),
      (readdir_eq cfg fsys p).trans (except_map_error _ _ e h),
      (stat_eq cfg fsys p).trans (except_map_error _ _ e h),
      (rm_eq cfg fsys p).trans (except_map_error _ _ e h),
      (unlink_eq cfg fsys p).trans (except_map_error _ _ e h)⟩
  · intro v h
    exact ⟨(access_eq cfg fsys p).trans (except_map_ok _ _ v h),
      (readFile_eq cfg fsys p).trans (except_map_ok _ _ v h),
      (readdir_eq cfg fsys p).trans (except_map_ok _ _ v h),
      (stat_eq cfg fsys p).trans (except_map_ok _ _ v h),
      (rm_eq cfg fsys p).trans (except_map_ok _ _ v h),
      (unlink_eq cfg fsys p).trans (except_map_ok _ _ v h)⟩
  · intro e h
    exact ⟨(writeFile_eq cfg fsys p).trans (except_map_error _ _ e h),
      (mkdir_eq cfg fsys p).trans (except_map_error _ _ e h),
      (appendFile_eq cfg fsys p).trans (except_map_error _ _ e h)⟩
  · intro v h
    exact ⟨(writeFile_eq cfg fsys p).trans (except_map_ok _ _ v h),
      (mkdir_eq cfg fsys p).trans (except_map_ok _ _ v h),
      (appendFile_eq cfg fsys p).trans (except_map_ok _ _ v h)⟩
  · intro e h
    constructor
    · rw [copyFile_eq, h]; rfl
    · rw [rename_eq, h]; rfl
  · intro v e hv he
    constructor
    · rw [copyFile_eq, hv, he]; rfl
    · rw [rename_eq, hv, he]; rfl
  · intro v w hv hw
    constructor
    · rw [copyFile_eq, hv, hw]; rfl
    · rw [rename_eq, hv, hw]; rfl
  · intro e h
    exact (lstat_eq cfg p).trans (except_map_error _ _ e h)
  · intro v h
    exact (lstat_eq cfg p).trans (except_map_ok _ _ v h)

/-- Witness for claim C5 at concrete inputs: a write to a new in-boundary
file issues the call on the validated resolved path, a read outside the
boundary fails with the validator's error before any call, and a copy with
an escaping symlinked source fails with the source's containment error. -/
theorem c5_adapter_short_circuit_witness :
    Adapter.writeFile cfgEx fsEx "/allowed/new.txt" =
      Except.ok (FsOp.writeFile "/allowed/new.txt")
    ∧ Adapter.readFile cfgEx fsEx "/etc/hosts" = Except.error SecError.enoent
    ∧ Adapter.copyFile cfgEx fsEx "/allowed/a" "/allowed/new.txt" =
      Except.error (SecError.pathNotAllowed "/allowed/a (resolves to /outside/a via symlink)") := by
  refine ⟨?_, ?_, ?_⟩
  · exact (((c5_adapter_short_circuit cfgEx fsEx "/allowed/new.txt" "/x").2.1.2
      "/allowed/new.txt" (by decide)).1)
  · exact ((c5_adapter_short_circuit cfgEx fsEx "/etc/hosts" "/x").1.1
      SecError.enoent (by decide)).2.1
  · exact ((c5_adapter_short_circuit cfgEx fsEx "/allowed/a" "/allowed/new.txt").2.2.1.1
      (SecError.pathNotAllowed "/allowed/a (resolves to /outside/a via symlink)") (by decide)).1

/-- Claim C9: a plain parameter name (no `?` or `[]` suffix) whose body
value is absent (`undefined`) or `null` is skipped without validation — it
contributes nothing to the parameter loop and the middleware calls
`next()`; only present values are rejected, a string outside the boundary
with a 403 response and a non-string with a 400 response. -/
theorem c9_absent_params_pass (cfg : SecurityConfig) (pn : String)
    (body : String → JsValue)
    (h1 : jsEndsWith pn "?" = false) (h2 : jsEndsWith pn "[]" = false) :
    ((body pn = JsValue.undef ∨ body pn = JsValue.null) →
      validateOneParam cfg pn body = none
      ∧ (∀ pre post, runParams cfg (pre ++ pn :: post) body = runParams cfg (pre ++ post) body)
      ∧ validatePathParams cfg [pn] body = MwOutcome.nextCalled)
    ∧ (∀ s, body pn = JsValue.str s →
        isPathAllowed cfg (pathResolve cfg.cwd s) = false →
        validatePathParams cfg [pn] body = MwOutcome.respond 403 (pathNotAllowedMessage s))
    ∧ (∀ v, body pn = v → v ≠ JsValue.undef → v ≠ JsValue.null →
        (∀ s, v ≠ JsValue.str s) →
        validatePathParams cfg [pn] body =
          MwOutcome.respond 400 (invalidTypeMessage pn "string" (typeofStr v))) := by
  refine ⟨?_, ?_, ?_⟩
  · intro hb
    have hone : validateOneParam cfg pn body = none := by
      unfold validateOneParam
      rw [h2, h1]
      rcases hb with hb | hb <;> simp [hb]
    refine ⟨hone, ?_, ?_⟩
    · intro pre post
      induction pre with
      | nil => simp [runParams, hone]
      | cons n pre ih =>
        simp only [List.cons_append, runParams]
        cases validateOneParam cfg n body <;> simp [List.append_eq, ih]
    · simp [validatePathParams, runParams, hone]
  · intro s hb hdeny
    have hval : validatePath cfg s = Except.error (SecError.pathNotAllowed s) :=
      (validatePath_error_iff cfg s _).mpr ⟨hdeny, rfl⟩
    have hone : validateOneParam cfg pn body =
        some (MwError.pathNotAllowed (pathNotAllowedMessage s)) := by
      unfold validateOneParam
      rw [h2, h1]
      simp [hb, checkPathValue, hval]
    simp [validatePathParams, runParams, hone]
  · intro v hb hu hn hs
    have hone : validateOneParam cfg pn body =
        some (MwError.invalidType (invalidTypeMessage pn "string" (typeofStr v))) := by
      unfold validateOneParam
      rw [h2, h1]
      cases v with
      | undef => exact absurd rfl hu
      | null => exact absurd rfl hn
      | str s => exact absurd rfl (hs s)
      | boolean b => simp [hb, checkPathValue, typeofStr]
      | number => simp [hb, checkPathValue, typeofStr]
      | arr elems => simp [hb, checkPathValue, typeofStr]
    simp [validatePathParams, runParams, hone]

/-- Witness for claim C9: an absent parameter passes, and a present
non-string parameter draws a 400 response. -/
theorem c9_absent_params_pass_witness :
    validatePathParams cfgEx ["projectPath"] (fun _ => JsValue.undef) = MwOutcome.nextCalled
    ∧ validatePathParams cfgEx ["projectPath"] (fun _ => JsValue.number) =
        MwOutcome.respond 400 (invalidTypeMessage "projectPath" "string" "number") := by
  constructor
  · exact ((c9_absent_params_pass cfgEx "projectPath" (fun _ => JsValue.undef)
      (by decide) (by decide)).1 (Or.inl rfl)).2.2
  · exact (c9_absent_params_pass cfgEx "projectPath" (fun _ => JsValue.number)
      (by decide) (by decide)).2.2 JsValue.number rfl
      (fun h => JsValue.noConfusion h) (fun h => JsValue.noConfusion h)
      (fun s h => JsValue.noConfusion h)

/-- A resolved path is always absolute. -/
theorem pathResolve_isAbsolute (cwd p : String) :
    pathIsAbsolute (pathResolve cwd p) = true := by
  simp [pathIsAbsolute, pathResolve]

/-- Claim C10: `initAllowedPaths` treats an unset or empty directory
variable as no boundary, resolves any nonempty value to an absolute path
against the working directory, and selects strict mode for every
`SECURITY_MODE` value that does not lowercase to `"permissive"`
(permissive when it does); the model is a total function, so no
configuration input raises. -/
theorem c10_initAllowedPaths_config (env : Env) :
    ((env.ALLOWED_ROOT_DIRECTORY = none ∨ env.ALLOWED_ROOT_DIRECTORY = some "") →
      (initAllowedPaths env).allowedRootDirectory = none)
    ∧ (∀ r, env.ALLOWED_ROOT_DIRECTORY = some r → r ≠ "" →
        (initAllowedPaths env).allowedRootDirectory = some (pathResolve env.cwd r)
        ∧ pathIsAbsolute (pathResolve env.cwd r) = true)
    ∧ ((env.DATA_DIR = none ∨ env.DATA_DIR = some "") →
      (initAllowedPaths env).dataDirectory = none)
    ∧ (∀ d, env.DATA_DIR = some d → d ≠ "" →
        (initAllowedPaths env).dataDirectory = some (pathResolve env.cwd d)
        ∧ pathIsAbsolute (pathResolve env.cwd d) = true)
    ∧ (env.SECURITY_MODE = none → (initAllowedPaths env).securityMode = SecurityMode.strict)
    ∧ (∀ m, env.SECURITY_MODE = some m → jsToLower m ≠ "permissive" →
        (initAllowedPaths env).securityMode = SecurityMode.strict)
    ∧ (∀ m, env.SECURITY_MODE = some m → jsToLower m = "permissive" →
        (initAllowedPaths env).securityMode = SecurityMode.permissive)
    ∧ (initAllowedPaths env).cwd = env.cwd := by
  refine ⟨?_, ?_, ?_, ?_, ?_, ?_, ?_, rfl⟩
  · rintro (h | h) <;> simp [initAllowedPaths, h]
  · intro r hr hne
    exact ⟨by simp [initAllowedPaths, hr, hne], pathResolve_isAbsolute env.cwd r⟩
  · rintro (h | h) <;> simp [initAllowedPaths, h]
  · intro d hd hne
    exact ⟨by simp [initAllowedPaths, hd, hne], pathResolve_isAbsolute env.cwd d⟩
  · intro h
    simp [initAllowedPaths, h]
  · intro m hm hne
    simp [initAllowedPaths, hm, hne]
  · intro m hm he
    simp [initAllowedPaths, hm, he]

/-- Witness for claim C10 at a concrete environment: an empty root
variable leaves the root unset, `SECURITY_MODE=PERMISSIVE` selects
permissive mode case-insensitively, and a relative data directory is
resolved against the working directory. -/
theorem c10_initAllowedPaths_config_witness :
    (initAllowedPaths ⟨some "PERMISSIVE", some "", some "data/dir", "/cwd"⟩).allowedRootDirectory
      = none
    ∧ (initAllowedPaths ⟨some "PERMISSIVE", some "", some "data/dir", "/cwd"⟩).securityMode
      = SecurityMode.permissive
    ∧ (initAllowedPaths ⟨some "PERMISSIVE", some "", some "data/dir", "/cwd"⟩).dataDirectory
      = some (pathResolve "/cwd" "data/dir") := by
  refine ⟨?_, ?_, ?_⟩
  · exact (c10_initAllowedPaths_config ⟨some "PERMISSIVE", some "", some "data/dir", "/cwd"⟩).1
      (Or.inr rfl)
  · exact (c10_initAllowedPaths_config
      ⟨some "PERMISSIVE", some "", some "data/dir", "/cwd"⟩).2.2.2.2.2.2.1 "PERMISSIVE" rfl
      (by decide)
  · exact ((c10_initAllowedPaths_config
      ⟨some "PERMISSIVE", some "", some "data/dir", "/cwd"⟩).2.2.2.1 "data/dir" rfl
      (by decide)).1
